import Mathlib

/-!
Shallow embedding of the bid-euchre rules engine (src/index.ts, src/utils.ts,
and the data model of src/definitions.ts), together with theorems settling
the specification claims about it.

TypeScript string-literal unions become inductive types; object interfaces
become structures; the `Phase` discriminated union becomes an inductive with
one constructor per variant.  Fallible JS array indexing (`xs[0]` on a
possibly-empty array) is modelled with `Option` or with an explicit default
standing for `undefined`.
-/

/-! ### Data model (src/definitions.ts) -/

inductive CardRank where
  | nine
  | ten
  | jack
  | queen
  | king
  | ace
  deriving DecidableEq, Repr

inductive CardSuit where
  | Clubs
  | Diamonds
  | Hearts
  | Spades
  deriving DecidableEq, Repr

structure Card where
  rank : CardRank
  suit : CardSuit
  deriving DecidableEq, Repr

inductive PlayerPosition where
  | one
  | two
  | three
  | four
  deriving DecidableEq, Repr

structure LobbyPlayer where
  name : String
  position : PlayerPosition
  deriving DecidableEq, Repr

structure Player where
  name : String
  position : PlayerPosition
  hand : List Card
  deriving DecidableEq, Repr

structure Team where
  players : Player × Player
  points : Int
  deriving DecidableEq, Repr

inductive BidChoice where
  | Pass
  | three
  | four
  | five
  | six
  | PartnersBestCard
  | GoingAlone
  deriving DecidableEq, Repr

inductive Trump where
  | suit (s : CardSuit)
  | High
  | Low
  deriving DecidableEq, Repr

structure Bid where
  playerPosition : PlayerPosition
  choice : BidChoice
  deriving DecidableEq, Repr

structure UpCard where
  owner : PlayerPosition
  card : Card
  deriving DecidableEq, Repr

structure BiddingPhase where
  teams : Team × Team
  dealer : PlayerPosition
  bidPosition : PlayerPosition
  bids : List Bid
  deriving DecidableEq, Repr

structure TrumpPickingPhase where
  teams : Team × Team
  dealer : PlayerPosition
  winningBid : Bid
  deriving DecidableEq, Repr

structure PartnersBestCardPickingPhase where
  teams : Team × Team
  dealer : PlayerPosition
  trump : Trump
  winningBid : Bid
  partner : PlayerPosition
  deriving DecidableEq, Repr

structure TrickTakingPhase where
  teams : Team × Team
  dealer : PlayerPosition
  trump : Trump
  winningBid : Bid
  cardPosition : PlayerPosition
  currentTrick : List UpCard
  finishedTricks : List (List UpCard)
  playerSittingOut : Option PlayerPosition
  deriving DecidableEq, Repr

structure GameOverPhase where
  winners : Team
  losers : Team
  deriving DecidableEq, Repr

inductive Phase where
  | bidding (p : BiddingPhase)
  | pickingTrump (p : TrumpPickingPhase)
  | pickingPartnersBestCard (p : PartnersBestCardPickingPhase)
  | trickTaking (p : TrickTakingPhase)
  deriving DecidableEq, Repr

/-- The untagged TS union `Option = BidChoice | Trump | Card`; the three kinds
are disjoint sets of values in TS, so the tagged sum is faithful. -/
inductive MoveOption where
  | bid (b : BidChoice)
  | trump (t : Trump)
  | card (c : Card)
  deriving DecidableEq, Repr

/-- The return type `Phase | GameOverPhase` of chooseOption and of the
per-phase collaborators. -/
inductive PhaseOrGameOver where
  | phase (p : Phase)
  | gameOver (g : GameOverPhase)
  deriving DecidableEq, Repr

/-! ### src/utils.ts -/

def bidHierarchy : List BidChoice :=
  [.GoingAlone, .PartnersBestCard, .six, .five, .four, .three, .Pass]

/-- Indexing `[0]` of the JS filter result is `undefined` on an empty array,
so the result is an `Option` (the filter is in fact never empty). -/
def getHigherBid (bidA bidB : BidChoice) : Option BidChoice :=
  (bidHierarchy.filter fun element => element == bidA || element == bidB).head?

def getNextPosition (position : PlayerPosition) : PlayerPosition :=
  if position == .one then .two
  else if position == .two then .three
  else if position == .three then .four
  else .one

def getPositionOfPartner (position : PlayerPosition) : PlayerPosition :=
  if position == .one then .three
  else if position == .two then .four
  else if position == .three then .one
  else .two

def isFirstBidGreaterThanSecond (first second : BidChoice) : Bool :=
  getHigherBid first second == some first

def getHigherBids (bid : BidChoice) : List BidChoice :=
  bidHierarchy.filter fun element => isFirstBidGreaterThanSecond element bid

def getSameColorSuit (suit : CardSuit) : CardSuit :=
  if suit == .Clubs then .Spades
  else if suit == .Spades then .Clubs
  else if suit == .Diamonds then .Hearts
  else .Diamonds

def getCardsOfSuitWhenTrumpOrderedByHierarchyDesc (suit : CardSuit) (trump : Trump) :
    List Card :=
  if trump == .Low || trump == .High then
    let cards : List Card :=
      [⟨.nine, suit⟩, ⟨.ten, suit⟩, ⟨.jack, suit⟩, ⟨.queen, suit⟩, ⟨.king, suit⟩,
        ⟨.ace, suit⟩]
    if trump == .Low then cards else cards.reverse
  else
    let leftBowerSuit : CardSuit := getSameColorSuit suit
    if Trump.suit suit == trump then
      [⟨.jack, suit⟩, ⟨.jack, leftBowerSuit⟩, ⟨.ace, suit⟩, ⟨.king, suit⟩,
        ⟨.queen, suit⟩, ⟨.ten, suit⟩, ⟨.nine, suit⟩]
    else
      if leftBowerSuit == suit then
        [⟨.ace, suit⟩, ⟨.king, suit⟩, ⟨.queen, suit⟩, ⟨.ten, suit⟩, ⟨.nine, suit⟩]
      else
        [⟨.ace, suit⟩, ⟨.king, suit⟩, ⟨.queen, suit⟩, ⟨.jack, suit⟩, ⟨.ten, suit⟩,
          ⟨.nine, suit⟩]

def isSameCard (a b : Card) : Bool :=
  a.rank == b.rank && a.suit == b.suit

def getAllCards : List Card :=
  [⟨.nine, .Clubs⟩, ⟨.ten, .Clubs⟩, ⟨.jack, .Clubs⟩, ⟨.queen, .Clubs⟩,
    ⟨.king, .Clubs⟩, ⟨.ace, .Clubs⟩,
    ⟨.nine, .Diamonds⟩, ⟨.ten, .Diamonds⟩, ⟨.jack, .Diamonds⟩, ⟨.queen, .Diamonds⟩,
    ⟨.king, .Diamonds⟩, ⟨.ace, .Diamonds⟩,
    ⟨.nine, .Hearts⟩, ⟨.ten, .Hearts⟩, ⟨.jack, .Hearts⟩, ⟨.queen, .Hearts⟩,
    ⟨.king, .Hearts⟩, ⟨.ace, .Hearts⟩,
    ⟨.nine, .Spades⟩, ⟨.ten, .Spades⟩, ⟨.jack, .Spades⟩, ⟨.queen, .Spades⟩,
    ⟨.king, .Spades⟩, ⟨.ace, .Spades⟩]

def FullHand : Type := Card × Card × Card × Card × Card × Card

def FourHands : Type := FullHand × FullHand × FullHand × FullHand

/-- Stands for the `undefined` a JS out-of-bounds index yields; unreachable
whenever the shuffled deck has its 24 cards. -/
def defaultCard : Card := ⟨.nine, .Clubs⟩

/-- Modelled from the spec: `shuffle` (src/shuffle.ts, not under src/) returns
a uniformly random permutation of the deck, so the shuffled deck is taken here
as an explicit argument; the claims quantify over every permutation. The
partition into four 6-card hands below is src/utils.ts line by line. -/
def shuffleAndDealFourHands (allCardsShuffled : List Card) : FourHands :=
  ((allCardsShuffled.getD 0 defaultCard, allCardsShuffled.getD 1 defaultCard,
    allCardsShuffled.getD 2 defaultCard, allCardsShuffled.getD 3 defaultCard,
    allCardsShuffled.getD 4 defaultCard, allCardsShuffled.getD 5 defaultCard),
   (allCardsShuffled.getD 6 defaultCard, allCardsShuffled.getD 7 defaultCard,
    allCardsShuffled.getD 8 defaultCard, allCardsShuffled.getD 9 defaultCard,
    allCardsShuffled.getD 10 defaultCard, allCardsShuffled.getD 11 defaultCard),
   (allCardsShuffled.getD 12 defaultCard, allCardsShuffled.getD 13 defaultCard,
    allCardsShuffled.getD 14 defaultCard, allCardsShuffled.getD 15 defaultCard,
    allCardsShuffled.getD 16 defaultCard, allCardsShuffled.getD 17 defaultCard),
   (allCardsShuffled.getD 18 defaultCard, allCardsShuffled.getD 19 defaultCard,
    allCardsShuffled.getD 20 defaultCard, allCardsShuffled.getD 21 defaultCard,
    allCardsShuffled.getD 22 defaultCard, allCardsShuffled.getD 23 defaultCard))

def getIndex (position : PlayerPosition) : Nat :=
  if position == .one then 0
  else if position == .two then 1
  else if position == .three then 2
  else 3

def getHandSliceViaPosition (position : PlayerPosition) (fourShuffledHands : FourHands) :
    FullHand :=
  match getIndex position with
  | 0 => fourShuffledHands.1
  | 1 => fourShuffledHands.2.1
  | 2 => fourShuffledHands.2.2.1
  | _ => fourShuffledHands.2.2.2

/-! ### Spec-side definitions, for refinement comparisons only.
These follow the words of the spec (sections 4.1 and 4.3), not the source. -/

/-- Spec 4.1: the seven-element total order Pass < 3 < 4 < 5 < 6 <
Partner's Best Card < Going Alone, as a rank function. -/
def specBidRank : BidChoice → Nat
  | .Pass => 0
  | .three => 1
  | .four => 2
  | .five => 3
  | .six => 4
  | .PartnersBestCard => 5
  | .GoingAlone => 6

/-- All seven bid choices listed in descending priority per the spec order. -/
def specBidChoicesDesc : List BidChoice :=
  [.GoingAlone, .PartnersBestCard, .six, .five, .four, .three, .Pass]

/-- Spec 4.1: the choices that strictly outrank `bid`, in descending order. -/
def specHigherBids (bid : BidChoice) : List BidChoice :=
  specBidChoicesDesc.filter fun c => specBidRank bid < specBidRank c

/-- Spec 4.3: the same-color pairing Clubs and Spades, Diamonds and Hearts. -/
def specSameColorSuit : CardSuit → CardSuit
  | .Clubs => .Spades
  | .Spades => .Clubs
  | .Diamonds => .Hearts
  | .Hearts => .Diamonds

/-- Spec 4.3: rankedCards, strongest first, with the 7/6/5/6 case split: 7
cards for the trump suit (both bowers), 5 for trump's same-color bower-donor
suit (its Jack excluded), 6 otherwise. -/
def specRankedCards (suit : CardSuit) (trump : Trump) : List Card :=
  match trump with
  | .Low =>
      [⟨.nine, suit⟩, ⟨.ten, suit⟩, ⟨.jack, suit⟩, ⟨.queen, suit⟩, ⟨.king, suit⟩,
        ⟨.ace, suit⟩]
  | .High =>
      [⟨.ace, suit⟩, ⟨.king, suit⟩, ⟨.queen, suit⟩, ⟨.jack, suit⟩, ⟨.ten, suit⟩,
        ⟨.nine, suit⟩]
  | .suit t =>
      if suit = t then
        [⟨.jack, suit⟩, ⟨.jack, specSameColorSuit suit⟩, ⟨.ace, suit⟩,
          ⟨.king, suit⟩, ⟨.queen, suit⟩, ⟨.ten, suit⟩, ⟨.nine, suit⟩]
      else if suit = specSameColorSuit t then
        [⟨.ace, suit⟩, ⟨.king, suit⟩, ⟨.queen, suit⟩, ⟨.ten, suit⟩, ⟨.nine, suit⟩]
      else
        [⟨.ace, suit⟩, ⟨.king, suit⟩, ⟨.queen, suit⟩, ⟨.jack, suit⟩, ⟨.ten, suit⟩,
          ⟨.nine, suit⟩]

/-! ### src/index.ts: the phase legality checker -/

def phaseName : Phase → String
  | .bidding _ => "Bidding"
  | .pickingTrump _ => "Picking Trump"
  | .pickingPartnersBestCard _ => "Picking Partner's Best Card"
  | .trickTaking _ => "Trick-Taking"

def teamsOf : Phase → Team × Team
  | .bidding p => p.teams
  | .pickingTrump p => p.teams
  | .pickingPartnersBestCard p => p.teams
  | .trickTaking p => p.teams

/-- TS line 41: `phase.playerSittingOut && phase.playerSittingOut ===
phase.cardPosition` (a seat string is always truthy). -/
def hasSittingOutConflict : Phase → Bool
  | .trickTaking p => p.playerSittingOut == some p.cardPosition
  | _ => false

/-- TS line 51: `teams[0].players.concat(teams[1].players)`. -/
def playersOf (phase : Phase) : List Player :=
  [(teamsOf phase).1.players.1, (teamsOf phase).1.players.2,
    (teamsOf phase).2.players.1, (teamsOf phase).2.players.2]

def doAllPlayersHaveSixCards (phase : Phase) : Bool :=
  (playersOf phase).all fun player => player.hand.length == 6

/-- TS line 64: the reduce concatenating every player's hand. -/
def cardsInHandsOfPlayers (phase : Phase) : List Card :=
  (playersOf phase).foldl (fun accumulator currentValue => accumulator ++ currentValue.hand) []

/-- TS line 68: every finished trick, and the current trick, holds at most one
card per owner (`[...new Set(xs)].length === xs.length`). -/
def tricksHaveUniqueOwners : Phase → Bool
  | .trickTaking p =>
      (p.finishedTricks.all fun trick =>
        ((trick.map fun upCard => upCard.owner).eraseDups.length == trick.length)) &&
      ((p.currentTrick.map fun upCard => upCard.owner).eraseDups.length ==
        p.currentTrick.length)
  | _ => true

/-- TS line 84: cards on the table (finished tricks then the current trick),
empty outside Trick-Taking. -/
def cardsInPlay : Phase → List Card
  | .trickTaking p =>
      (p.finishedTricks.flatMap fun trick => trick.map fun upCard => upCard.card) ++
        p.currentTrick.map fun upCard => upCard.card
  | _ => []

/-- TS line 89: `cardsInHandsOfPlayers.concat(cardsInPlay)`. -/
def cardsOf (phase : Phase) : List Card :=
  cardsInHandsOfPlayers phase ++ cardsInPlay phase

/-- TS line 94: the double loop over all index pairs; two entries at distinct
indices must differ in rank or in suit. -/
def isEveryCardUnique (cards : List Card) : Bool :=
  cards.enum.all fun firstEntry =>
    cards.enum.all fun secondEntry =>
      firstEntry.1 == secondEntry.1 ||
        firstEntry.2.rank != secondEntry.2.rank ||
        firstEntry.2.suit != secondEntry.2.suit

/-- TS line 107: all four seats occupied (`[...new Set(positions)].length !== 4`). -/
def seatsDistinct (phase : Phase) : Bool :=
  ((playersOf phase).map fun player => player.position).eraseDups.length == 4

/-- TS line 110: each team's two seats are 1 and 3, or 2 and 4. -/
def teamsSitOpposite (phase : Phase) : Bool :=
  [(teamsOf phase).1, (teamsOf phase).2].all fun team =>
    let positions := [team.players.1.position, team.players.2.position]
    (positions.contains .one && positions.contains .three) ||
      (positions.contains .two && positions.contains .four)

/-- TS line 125: `phase.currentTrick.length >= 4` in Trick-Taking. -/
def hasFullCurrentTrick : Phase → Bool
  | .trickTaking p => decide (4 ≤ p.currentTrick.length)
  | _ => false

def sittingOutMessage : String := "The player sitting out shouldn't be able to play"

def currentTrickSizeMessage : String :=
  "The current trick cannot have 4 or more cards in it, if it did then it wouldn't be considered the current trick and should instead be one of the finished tricks."

def determineIfPhaseIsLegal (phase : Phase) : Bool × String :=
  if hasSittingOutConflict phase then
    (false, sittingOutMessage)
  else if !([(teamsOf phase).1, (teamsOf phase).2].length == 2) then
    (false, "Team lengths were not two")
  else if (phaseName phase != "Trick-Taking") &&
      (phaseName phase != "Picking Partner's Best Card") &&
      !(doAllPlayersHaveSixCards phase) then
    (false,
      "Not all players have 6 cards in their hands each even though we aren't in the Trick-Taking Phase yet.")
  else if !(tricksHaveUniqueOwners phase) then
    (false, "One of the finished tricks has more than one card from the same player.")
  else if !((cardsOf phase).length == 24) then
    (false, "Game does not have 24 cards in play.")
  else if !(isEveryCardUnique (cardsOf phase)) then
    (false, "Not every card is unique")
  else if !(seatsDistinct phase) then
    (false, "At least two of the players are sharing the same seat.")
  else if !(teamsSitOpposite phase) then
    (false, "Players of the same team are not sitting opposite each other.")
  else if hasFullCurrentTrick phase then
    (false, currentTrickSizeMessage)
  else
    (true, "No issue detected")

/-! ### src/index.ts: option enumeration and application.
The per-phase collaborators live in files outside src/ (choose_option_utils/*,
get_options_utils/*). -/

/-- Modelled from the spec: the per-phase collaborators of section 6
(getOptionsFor* and chooseOptionFor*, whose code is not under src/) are opaque
to this core and are passed as a record of functions; every claim about the
dispatch engine quantifies over them. -/
structure Collaborators where
  getOptionsForBiddingPhase : BiddingPhase → PlayerPosition → List MoveOption
  getOptionsForTrumpPickingPhase : TrumpPickingPhase → PlayerPosition → List MoveOption
  getOptionsForTrickTakingPhase : TrickTakingPhase → PlayerPosition → List MoveOption
  getOptionsForPartnersBestCardPickingPhase :
    PartnersBestCardPickingPhase → PlayerPosition → List MoveOption
  chooseOptionForBiddingPhase : BidChoice → BiddingPhase → PlayerPosition → PhaseOrGameOver
  chooseOptionForPickingTrumpPhase : Trump → TrumpPickingPhase → PhaseOrGameOver
  chooseOptionForPickingPartnersBestCardPhase :
    Card → PartnersBestCardPickingPhase → PlayerPosition → PhaseOrGameOver
  chooseOptionForTrickTakingPhase : Card → TrickTakingPhase → PlayerPosition → PhaseOrGameOver

/-- TS line 134: dispatch on `phase.name` after the legality fail-safe. -/
def getOptions (C : Collaborators) (phase : Phase) (currentPlayer : PlayerPosition) :
    List MoveOption :=
  if !(determineIfPhaseIsLegal phase).1 then []
  else
    match phase with
    | .bidding p => C.getOptionsForBiddingPhase p currentPlayer
    | .pickingTrump p => C.getOptionsForTrumpPickingPhase p currentPlayer
    | .trickTaking p => C.getOptionsForTrickTakingPhase p currentPlayer
    | .pickingPartnersBestCard p => C.getOptionsForPartnersBestCardPickingPhase p currentPlayer

/-- TS line 153: membership by `JSON.stringify` equality, which on these values
is structural value equality. -/
def isLegalOption (C : Collaborators) (option : MoveOption) (phase : Phase)
    (currentPlayer : PlayerPosition) : Bool :=
  (getOptions C phase currentPlayer).any fun o => o == option

/-- TS line 180: the inner `getPhase` closure; the `isBidChoice`, `isTrump`
and `isCard` guards become the option tag of the match, and the final
`return phase` is the wildcard row. -/
def getPhaseCandidate (C : Collaborators) (option : MoveOption) (phase : Phase)
    (currentPlayer : PlayerPosition) : PhaseOrGameOver :=
  match phase, option with
  | .bidding p, .bid b => C.chooseOptionForBiddingPhase b p currentPlayer
  | .pickingTrump p, .trump t => C.chooseOptionForPickingTrumpPhase t p
  | .pickingPartnersBestCard p, .card c =>
      C.chooseOptionForPickingPartnersBestCardPhase c p currentPlayer
  | .trickTaking p, .card c => C.chooseOptionForTrickTakingPhase c p currentPlayer
  | _, _ => .phase phase

/-- TS line 162. The source guard is `!isLegalOption(...) ||
!determineIfPhaseIsLegal(phase)`; the second disjunct negates the returned
tuple, which is always truthy in JS, so it is constantly false and only the
option-legality test decides the early return. -/
def chooseOption (C : Collaborators) (option : MoveOption) (phase : Phase)
    (currentPlayer : PlayerPosition) : PhaseOrGameOver :=
  if !(isLegalOption C option phase currentPlayer) then .phase phase
  else
    match getPhaseCandidate C option phase currentPlayer with
    | .gameOver g => .gameOver g
    | .phase nextPhase =>
        if (determineIfPhaseIsLegal nextPhase).1 then .phase nextPhase
        else .phase phase

/-! ### src/index.ts: startGame -/

/-- Stands for the `undefined` that `players.filter(...)[0]` yields in JS when
no player sits in the asked position; unreachable when the four lobby players
cover the four seats. -/
def defaultLobbyPlayer : LobbyPlayer := ⟨"", .one⟩

def getPlayerInPosition
    (players : LobbyPlayer × LobbyPlayer × LobbyPlayer × LobbyPlayer)
    (position : PlayerPosition) : LobbyPlayer :=
  ([players.1, players.2.1, players.2.2.1, players.2.2.2].filter fun player =>
    player.position == position).headD defaultLobbyPlayer

/-- TS spread `[...getHandSliceViaPosition(...)]` turning the fixed-length
slice into the player's hand array. -/
def fullHandToList (h : FullHand) : List Card :=
  [h.1, h.2.1, h.2.2.1, h.2.2.2.1, h.2.2.2.2.1, h.2.2.2.2.2]

def dealPlayer (players : LobbyPlayer × LobbyPlayer × LobbyPlayer × LobbyPlayer)
    (fourShuffledHands : FourHands) (position : PlayerPosition) : Player :=
  let lobbyPlayer := getPlayerInPosition players position
  { name := lobbyPlayer.name, position := lobbyPlayer.position,
    hand := fullHandToList (getHandSliceViaPosition position fourShuffledHands) }

/-- The Bidding phase startGame constructs (TS line 218). -/
def startGamePhase (dealer : PlayerPosition) (shuffledDeck : List Card)
    (players : LobbyPlayer × LobbyPlayer × LobbyPlayer × LobbyPlayer) : BiddingPhase :=
  let fourShuffledHands := shuffleAndDealFourHands shuffledDeck
  { teams :=
      ({ points := 0,
         players := (dealPlayer players fourShuffledHands .one,
                     dealPlayer players fourShuffledHands .three) },
       { points := 0,
         players := (dealPlayer players fourShuffledHands .two,
                     dealPlayer players fourShuffledHands .four) }),
    dealer := dealer,
    bidPosition := getNextPosition dealer,
    bids := [] }

/-- Modelled from the spec for its randomness only: the dealer seat (TS
`randomPlayerPosition()`, Math.random) and the shuffled deck (src/shuffle.ts,
not under src/) are the two random inputs and are passed as arguments; the
rest is TS line 204 onward. Returns the phase, or on an illegal construction
the `[boolean, string]` diagnostic tuple itself, as the source does. -/
def startGame (dealer : PlayerPosition) (shuffledDeck : List Card)
    (players : LobbyPlayer × LobbyPlayer × LobbyPlayer × LobbyPlayer) :
    Sum BiddingPhase (Bool × String) :=
  let phase := startGamePhase dealer shuffledDeck players
  let result := determineIfPhaseIsLegal (.bidding phase)
  if result.1 then .inl phase else .inr result

/-! ### Finiteness instances, so that claims quantified over the small
enumerations are decidable. -/

instance : Fintype CardRank :=
  Fintype.ofList [.nine, .ten, .jack, .queen, .king, .ace] fun x => by cases x <;> decide

instance : Fintype CardSuit :=
  Fintype.ofList [.Clubs, .Diamonds, .Hearts, .Spades] fun x => by cases x <;> decide

instance : Fintype PlayerPosition :=
  Fintype.ofList [.one, .two, .three, .four] fun x => by cases x <;> decide

instance : Fintype BidChoice :=
  Fintype.ofList [.Pass, .three, .four, .five, .six, .PartnersBestCard, .GoingAlone]
    fun x => by cases x <;> decide

instance : Fintype Trump :=
  Fintype.ofList [.High, .Low, .suit .Clubs, .suit .Diamonds, .suit .Hearts, .suit .Spades]
    fun x => by
      cases x with
      | High => decide
      | Low => decide
      | suit s => cases s <;> decide

/-! ### Claims about the bid hierarchy and the trump ranking -/

/-- C3 (code bug): the spec's case analysis for rankedCards fails on the
bower-donor suit. The source guards its 5-card branch with `leftBowerSuit ===
suit` where `leftBowerSuit = getSameColorSuit(suit)` never equals `suit`, so
the branch is unreachable and the donor suit keeps its Jack: at suit = Spades,
trump = Clubs the code returns 6 cards including the Jack of Spades where the
spec requires the 5 cards without it. Every other case of the claim's analysis
(Low, High, the trump suit itself, the off-color suits) agrees with the spec. -/
theorem rankedCards_bower_donor_divergence :
    getCardsOfSuitWhenTrumpOrderedByHierarchyDesc .Spades (.suit .Clubs) =
      [⟨.ace, .Spades⟩, ⟨.king, .Spades⟩, ⟨.queen, .Spades⟩, ⟨.jack, .Spades⟩,
        ⟨.ten, .Spades⟩, ⟨.nine, .Spades⟩] ∧
    specRankedCards .Spades (.suit .Clubs) =
      [⟨.ace, .Spades⟩, ⟨.king, .Spades⟩, ⟨.queen, .Spades⟩, ⟨.ten, .Spades⟩,
        ⟨.nine, .Spades⟩] ∧
    getCardsOfSuitWhenTrumpOrderedByHierarchyDesc .Spades (.suit .Clubs) ≠
      specRankedCards .Spades (.suit .Clubs) ∧
    (∀ s : CardSuit, getCardsOfSuitWhenTrumpOrderedByHierarchyDesc s .Low =
      specRankedCards s .Low) ∧
    (∀ s : CardSuit, getCardsOfSuitWhenTrumpOrderedByHierarchyDesc s .High =
      specRankedCards s .High) ∧
    (∀ s : CardSuit, getCardsOfSuitWhenTrumpOrderedByHierarchyDesc s (.suit s) =
      specRankedCards s (.suit s)) ∧
    (∀ s t : CardSuit, s ≠ t → s ≠ specSameColorSuit t →
      getCardsOfSuitWhenTrumpOrderedByHierarchyDesc s (.suit t) =
        specRankedCards s (.suit t)) := by decide

/-- C4 (amended): getHigherBids(b) returns exactly the BidChoices whose rank
is greater than or equal to b's in the spec's seven-element order, listed in
descending priority — not the strictly higher ones: because getHigherBid of
two equal bids returns that bid, isFirstBidGreaterThanSecond(b, b) is true and
b is always a member of its own result. -/
theorem getHigherBids_ge_desc :
    ∀ b : BidChoice,
      getHigherBids b = specBidChoicesDesc.filter (fun c => specBidRank b ≤ specBidRank c) ∧
      b ∈ getHigherBids b := by decide

/-- C4 counterexample: at b = Pass the result contains Pass itself (indeed it
is the whole hierarchy), refuting "strictly outrank" and "never contains b". -/
theorem getHigherBids_contains_self_counterexample :
    (.Pass : BidChoice) ∈ getHigherBids .Pass ∧
    getHigherBids .Pass = bidHierarchy ∧
    getHigherBids .Pass ≠ specHigherBids .Pass := by decide

/-- C9 (code bug): for a real trump suit the four per-suit rankings are not
pairwise disjoint and do not partition the 24-card deck: the left-bower Jack
(Jack of Spades when trump is Clubs) appears both in the trump suit's 7-card
list and in the donor suit's own list, and the four lengths are 7, 6, 6, 6
summing to 25 — a consequence of the unreachable 5-card branch of C3. -/
theorem rankedCards_union_left_bower_twice :
    Card.mk .jack .Spades ∈ getCardsOfSuitWhenTrumpOrderedByHierarchyDesc .Clubs (.suit .Clubs) ∧
    Card.mk .jack .Spades ∈ getCardsOfSuitWhenTrumpOrderedByHierarchyDesc .Spades (.suit .Clubs) ∧
    ((getCardsOfSuitWhenTrumpOrderedByHierarchyDesc .Clubs (.suit .Clubs)) ++
      (getCardsOfSuitWhenTrumpOrderedByHierarchyDesc .Diamonds (.suit .Clubs)) ++
      (getCardsOfSuitWhenTrumpOrderedByHierarchyDesc .Hearts (.suit .Clubs)) ++
      (getCardsOfSuitWhenTrumpOrderedByHierarchyDesc .Spades (.suit .Clubs))).length = 25 := by
  decide

/-- C10: getHigherBid is total on equal arguments, getHigherBid(a, a) = a, and
on every pair it returns one of its two arguments. -/
theorem getHigherBid_total_on_pairs :
    ∀ a b : BidChoice,
      getHigherBid a a = some a ∧
      (getHigherBid a b = some a ∨ getHigherBid a b = some b) := by decide

/-! ### Shared lemmas and concrete fixtures for the dispatch-engine claims -/

theorem getOptions_nil_of_illegal (C : Collaborators) (phase : Phase)
    (seat : PlayerPosition) (h : (determineIfPhaseIsLegal phase).1 = false) :
    getOptions C phase seat = [] := by
  simp [getOptions, h]

theorem isLegalOption_false_of_not_mem (C : Collaborators) (option : MoveOption)
    (phase : Phase) (seat : PlayerPosition) (h : option ∉ getOptions C phase seat) :
    isLegalOption C option phase seat = false := by
  rw [isLegalOption, List.any_eq_false]
  intro o ho
  simp only [beq_iff_eq]
  intro he
  exact h (he ▸ ho)

def hand1 : List Card := getAllCards.take 6

def hand2 : List Card := (getAllCards.drop 6).take 6

def hand3 : List Card := (getAllCards.drop 12).take 6

def hand4 : List Card := (getAllCards.drop 18).take 6

/-- A fully legal concrete Bidding phase: 24 distinct cards in four 6-card
hands, seats 1 and 3 against seats 2 and 4. -/
def legalBiddingPhase : BiddingPhase :=
  { teams :=
      ({ points := 0, players := (⟨"Alice", .one, hand1⟩, ⟨"Carol", .three, hand2⟩) },
       { points := 0, players := (⟨"Bob", .two, hand3⟩, ⟨"Dave", .four, hand4⟩) }),
    dealer := .one, bidPosition := .two, bids := [] }

/-- A collaborator record whose enumerators all return `options` and whose
appliers all return `result`; used to instantiate the quantified claims. -/
def constCollaborators (options : List MoveOption) (result : PhaseOrGameOver) :
    Collaborators :=
  { getOptionsForBiddingPhase := fun _ _ => options,
    getOptionsForTrumpPickingPhase := fun _ _ => options,
    getOptionsForTrickTakingPhase := fun _ _ => options,
    getOptionsForPartnersBestCardPickingPhase := fun _ _ => options,
    chooseOptionForBiddingPhase := fun _ _ _ => result,
    chooseOptionForPickingTrumpPhase := fun _ _ => result,
    chooseOptionForPickingPartnersBestCardPhase := fun _ _ _ => result,
    chooseOptionForTrickTakingPhase := fun _ _ _ => result }

def sampleGameOver : GameOverPhase :=
  { winners := legalBiddingPhase.teams.1, losers := legalBiddingPhase.teams.2 }

def gateCollaborators : Collaborators :=
  constCollaborators [.bid .Pass] (.gameOver sampleGameOver)

def emptyCollaborators : Collaborators :=
  constCollaborators [] (.phase (.bidding legalBiddingPhase))

/-! ### Claims about the option applier and enumerator -/

/-- C1: once a legal option has been dispatched, a Game Over candidate is
returned as is (no legality run on it), a candidate phase that passes the
legality checker is returned, and a candidate phase that fails it is replaced
by the original input phase. -/
theorem chooseOption_candidate_gate (C : Collaborators) (option : MoveOption)
    (phase : Phase) (seat : PlayerPosition)
    (h : isLegalOption C option phase seat = true) :
    (∀ g, getPhaseCandidate C option phase seat = .gameOver g →
        chooseOption C option phase seat = .gameOver g) ∧
    (∀ np, getPhaseCandidate C option phase seat = .phase np →
        chooseOption C option phase seat =
          if (determineIfPhaseIsLegal np).1 then .phase np else .phase phase) := by
  constructor
  · intro g hg
    simp [chooseOption, h, hg]
  · intro np hnp
    simp [chooseOption, h, hnp]

/-- C1 witness: a collaborator that answers Game Over to the one legal bid on
a concrete legal Bidding phase; chooseOption hands the Game Over through. -/
theorem chooseOption_candidate_gate_witness :
    isLegalOption gateCollaborators (.bid .Pass) (.bidding legalBiddingPhase) .two = true ∧
    chooseOption gateCollaborators (.bid .Pass) (.bidding legalBiddingPhase) .two =
      .gameOver sampleGameOver :=
  ⟨by decide,
    (chooseOption_candidate_gate gateCollaborators (.bid .Pass)
      (.bidding legalBiddingPhase) .two (by decide)).1 sampleGameOver rfl⟩

/-- C2: an option outside getOptions, or an input phase the legality checker
rejects (which empties getOptions, so the option test fails too), makes
chooseOption return the input phase itself — a no-op, not a failure. -/
theorem chooseOption_illegal_noop (C : Collaborators) (option : MoveOption)
    (phase : Phase) (seat : PlayerPosition)
    (h : option ∉ getOptions C phase seat ∨ (determineIfPhaseIsLegal phase).1 = false) :
    chooseOption C option phase seat = .phase phase := by
  have hfalse : isLegalOption C option phase seat = false := by
    rcases h with h | h
    · exact isLegalOption_false_of_not_mem C option phase seat h
    · refine isLegalOption_false_of_not_mem C option phase seat ?_
      rw [getOptions_nil_of_illegal C phase seat h]
      exact List.not_mem_nil option
  simp [chooseOption, hfalse]

/-- C2 witness: with an empty enumeration the Pass bid is illegal and
chooseOption returns the concrete input phase unchanged. -/
theorem chooseOption_illegal_noop_witness :
    (MoveOption.bid .Pass) ∉ getOptions emptyCollaborators (.bidding legalBiddingPhase) .two ∧
    chooseOption emptyCollaborators (.bid .Pass) (.bidding legalBiddingPhase) .two =
      .phase (.bidding legalBiddingPhase) :=
  ⟨by decide,
    chooseOption_illegal_noop emptyCollaborators (.bid .Pass)
      (.bidding legalBiddingPhase) .two (Or.inl (by decide))⟩

/-- C5: on a phase the legality checker rejects, getOptions returns the empty
sequence whatever the per-phase collaborators would offer. -/
theorem getOptions_illegal_phase_empty (C : Collaborators) (phase : Phase)
    (seat : PlayerPosition) (h : (determineIfPhaseIsLegal phase).1 = false) :
    getOptions C phase seat = [] :=
  getOptions_nil_of_illegal C phase seat h

/-- A Trick-Taking phase whose sitting-out player is the seat to act — the
first legality check rejects it. -/
def conflictTrickTakingPhase : TrickTakingPhase :=
  { teams := legalBiddingPhase.teams, dealer := .one, trump := .suit .Clubs,
    winningBid := { playerPosition := .one, choice := .three },
    cardPosition := .one, currentTrick := [], finishedTricks := [],
    playerSittingOut := some .one }

/-- C5 witness: the sitting-out-conflict phase is illegal and getOptions is
empty on it although the collaborator would enumerate a bid. -/
theorem getOptions_illegal_phase_empty_witness :
    (determineIfPhaseIsLegal (.trickTaking conflictTrickTakingPhase)).1 = false ∧
    getOptions gateCollaborators (.trickTaking conflictTrickTakingPhase) .two = [] :=
  ⟨by decide,
    getOptions_illegal_phase_empty gateCollaborators
      (.trickTaking conflictTrickTakingPhase) .two (by decide)⟩

/-- C6: option legality is exactly membership of the option in the enumerated
options under structural value equality (the embedding's equality on the
tagged option type, matching JSON.stringify equality on these values). -/
theorem isLegalOption_mem_structural (C : Collaborators) (option : MoveOption)
    (phase : Phase) (seat : PlayerPosition) :
    isLegalOption C option phase seat = true ↔ option ∈ getOptions C phase seat := by
  simp [isLegalOption, List.any_eq_true, beq_iff_eq]

/-! ### Claim C7: the Trick-Taking legality scenarios -/

def trickHand1 : List Card := getAllCards.take 5

def trickHand2 : List Card := (getAllCards.drop 6).take 5

def trickHand3 : List Card := (getAllCards.drop 12).take 5

def trickHand4 : List Card := (getAllCards.drop 18).take 5

/-- A Trick-Taking phase holding a full 4-card current trick that satisfies
every legality check preceding the trick-size bound. -/
def fullTrickPhase : TrickTakingPhase :=
  { teams :=
      ({ points := 0, players := (⟨"Alice", .one, trickHand1⟩, ⟨"Carol", .three, trickHand2⟩) },
       { points := 0, players := (⟨"Bob", .two, trickHand3⟩, ⟨"Dave", .four, trickHand4⟩) }),
    dealer := .one, trump := .suit .Clubs,
    winningBid := { playerPosition := .one, choice := .three },
    cardPosition := .one,
    currentTrick :=
      [⟨.one, ⟨.ace, .Clubs⟩⟩, ⟨.two, ⟨.ace, .Diamonds⟩⟩, ⟨.three, ⟨.ace, .Hearts⟩⟩,
        ⟨.four, ⟨.ace, .Spades⟩⟩],
    finishedTricks := [], playerSittingOut := none }

/-- The same full-trick phase with the seat to act also sitting out. -/
def conflictFullTrickPhase : TrickTakingPhase :=
  { fullTrickPhase with playerSittingOut := some .one }

theorem legality_fst_false_of_branch {c : Prop} [Decidable c] {s : String}
    {p : Bool × String} (h : p.1 = false) :
    (if c then ((false, s) : Bool × String) else p).1 = false := by
  split
  · rfl
  · exact h

/-- C7 (amended): a Trick-Taking phase with 4 or more cards in the current
trick always fails the legality checker, and its message references the trick
size bound whenever the phase passes every check that precedes that bound
(the checker short-circuits in source order, so an earlier violation — e.g. a
sitting-out conflict — reports its own message instead); and a Trick-Taking
phase whose playerSittingOut equals cardPosition always fails, with the
sitting-out message. -/
theorem trickTaking_illegal_checks :
    (∀ tt : TrickTakingPhase, 4 ≤ tt.currentTrick.length →
      (determineIfPhaseIsLegal (.trickTaking tt)).1 = false) ∧
    (∀ tt : TrickTakingPhase, 4 ≤ tt.currentTrick.length →
      hasSittingOutConflict (.trickTaking tt) = false →
      tricksHaveUniqueOwners (.trickTaking tt) = true →
      (cardsOf (.trickTaking tt)).length = 24 →
      isEveryCardUnique (cardsOf (.trickTaking tt)) = true →
      seatsDistinct (.trickTaking tt) = true →
      teamsSitOpposite (.trickTaking tt) = true →
      determineIfPhaseIsLegal (.trickTaking tt) = (false, currentTrickSizeMessage)) ∧
    (∀ tt : TrickTakingPhase, tt.playerSittingOut = some tt.cardPosition →
      determineIfPhaseIsLegal (.trickTaking tt) = (false, sittingOutMessage)) := by
  refine ⟨?_, ?_, ?_⟩
  · intro tt h
    have h9 : hasFullCurrentTrick (.trickTaking tt) = true := by
      simpa [hasFullCurrentTrick] using h
    unfold determineIfPhaseIsLegal
    refine legality_fst_false_of_branch ?_
    refine legality_fst_false_of_branch ?_
    refine legality_fst_false_of_branch ?_
    refine legality_fst_false_of_branch ?_
    refine legality_fst_false_of_branch ?_
    refine legality_fst_false_of_branch ?_
    refine legality_fst_false_of_branch ?_
    refine legality_fst_false_of_branch ?_
    simp [h9]
  · intro tt hlen hso hto hc24 hu hsd hopp
    have h9 : hasFullCurrentTrick (.trickTaking tt) = true := by
      simpa [hasFullCurrentTrick] using hlen
    simp [determineIfPhaseIsLegal, hso, hto, hc24, hu, hsd, hopp, h9, phaseName, teamsOf]
  · intro tt h
    have h1 : hasSittingOutConflict (.trickTaking tt) = true := by
      simp [hasSittingOutConflict, h]
    simp [determineIfPhaseIsLegal, h1]

/-- C7 counterexample: a Trick-Taking phase with a 4-card current trick whose
sitting-out player is also the seat to act fails with the sitting-out message,
not the trick-size message — refuting the claim that every over-full trick is
reported with the trick-size bound message. -/
theorem trickSize_message_counterexample :
    4 ≤ conflictFullTrickPhase.currentTrick.length ∧
    determineIfPhaseIsLegal (.trickTaking conflictFullTrickPhase) =
      (false, sittingOutMessage) ∧
    sittingOutMessage ≠ currentTrickSizeMessage :=
  ⟨by decide, by decide, by decide⟩

/-- C7 witness: the concrete full-trick phase passes every earlier check and
fails with the trick-size message; the conflicting phase fails with the
sitting-out message. -/
theorem trickTaking_illegal_checks_witness :
    determineIfPhaseIsLegal (.trickTaking fullTrickPhase) = (false, currentTrickSizeMessage) ∧
    (determineIfPhaseIsLegal (.trickTaking fullTrickPhase)).1 = false ∧
    determineIfPhaseIsLegal (.trickTaking conflictFullTrickPhase) =
      (false, sittingOutMessage) :=
  ⟨trickTaking_illegal_checks.2.1 fullTrickPhase (by decide) (by decide) (by decide)
      (by decide) (by decide) (by decide) (by decide),
    trickTaking_illegal_checks.1 fullTrickPhase (by decide),
    trickTaking_illegal_checks.2.2 conflictFullTrickPhase (by decide)⟩

/-! ### Claim C8: startGame -/

theorem isEveryCardUnique_of_nodup {l : List Card} (h : l.Nodup) :
    isEveryCardUnique l = true := by
  simp only [isEveryCardUnique, List.all_eq_true]
  rintro ⟨i, c1⟩ h1 ⟨j, c2⟩ h2
  rw [List.mk_mem_enum_iff_getElem?] at h1 h2
  by_cases hij : i = j
  · simp [hij]
  · have hlt : i < l.length := by
      by_contra hge
      rw [List.getElem?_eq_none (Nat.le_of_not_lt hge)] at h1
      exact Option.noConfusion h1
    have hne : c1 ≠ c2 := by
      intro hc
      subst hc
      exact hij (List.getElem?_inj hlt h (h1.trans h2.symm))
    simp only [Bool.or_eq_true, beq_iff_eq, bne_iff_ne, ne_eq]
    rcases eq_or_ne c1.suit c2.suit with hs | hs
    · refine Or.inl (Or.inr ?_)
      intro hr
      apply hne
      cases c1
      cases c2
      simp_all
    · exact Or.inr hs

theorem map_getD_range {α : Type} (d : α) : ∀ l : List α,
    (List.range l.length).map (fun i => l.getD i d) = l := by
  intro l
  induction l with
  | nil => rfl
  | cons a t ih =>
      rw [List.length_cons, List.range_succ_eq_map, List.map_cons, List.map_map]
      have hcomp : ((fun i => (a :: t).getD i d) ∘ Nat.succ) = fun i => t.getD i d := by
        funext i
        simp [List.getD]
      rw [hcomp, ih]
      simp [List.getD]

/-- The deck indices of the 24 dealt cards in the order the legality checker
concatenates the hands: seat 1 (hand 0), seat 3 (hand 2), seat 2 (hand 1),
seat 4 (hand 3). -/
def dealIdx : List Nat :=
  [0, 1, 2, 3, 4, 5, 12, 13, 14, 15, 16, 17, 6, 7, 8, 9, 10, 11, 18, 19, 20, 21, 22, 23]

theorem getPlayerInPosition_eval (P1 P2 P3 P4 : LobbyPlayer)
    (h1 : P1.position = PlayerPosition.one) (h2 : P2.position = PlayerPosition.two)
    (h3 : P3.position = PlayerPosition.three) (h4 : P4.position = PlayerPosition.four) :
    getPlayerInPosition (P1, P2, P3, P4) .one = P1 ∧
    getPlayerInPosition (P1, P2, P3, P4) .two = P2 ∧
    getPlayerInPosition (P1, P2, P3, P4) .three = P3 ∧
    getPlayerInPosition (P1, P2, P3, P4) .four = P4 := by
  refine ⟨?_, ?_, ?_, ?_⟩ <;> simp [getPlayerInPosition, h1, h2, h3, h4]

theorem startGamePhase_legal (dealer : PlayerPosition) (deck : List Card)
    (P1 P2 P3 P4 : LobbyPlayer) (hperm : deck.Perm getAllCards)
    (h1 : P1.position = PlayerPosition.one) (h2 : P2.position = PlayerPosition.two)
    (h3 : P3.position = PlayerPosition.three) (h4 : P4.position = PlayerPosition.four) :
    determineIfPhaseIsLegal (.bidding (startGamePhase dealer deck (P1, P2, P3, P4))) =
      (true, "No issue detected") := by
  obtain ⟨hp1, hp2, hp3, hp4⟩ := getPlayerInPosition_eval P1 P2 P3 P4 h1 h2 h3 h4
  have hcards : cardsOf (.bidding (startGamePhase dealer deck (P1, P2, P3, P4))) =
      dealIdx.map (fun i => deck.getD i defaultCard) := rfl
  have hlen : deck.length = 24 := by rw [hperm.length_eq]; rfl
  have hdeckmap : (List.range 24).map (fun i => deck.getD i defaultCard) = deck := by
    rw [← hlen]
    exact map_getD_range defaultCard deck
  have hpermcards :
      (cardsOf (.bidding (startGamePhase dealer deck (P1, P2, P3, P4)))).Perm deck := by
    rw [hcards, ← hdeckmap]
    exact List.Perm.map _ (by decide : dealIdx.Perm (List.range 24))
  have hnodup : (cardsOf (.bidding (startGamePhase dealer deck (P1, P2, P3, P4)))).Nodup :=
    (hpermcards.trans hperm).nodup_iff.mpr (by decide : getAllCards.Nodup)
  have hlen24 :
      (cardsOf (.bidding (startGamePhase dealer deck (P1, P2, P3, P4)))).length = 24 := by
    rw [hpermcards.length_eq, hlen]
  have huniq := isEveryCardUnique_of_nodup hnodup
  have hseats : seatsDistinct (.bidding (startGamePhase dealer deck (P1, P2, P3, P4))) = true := by
    simp [seatsDistinct, playersOf, teamsOf, startGamePhase, dealPlayer, hp1, hp2, hp3, hp4,
      h1, h2, h3, h4]
    decide
  have hopp : teamsSitOpposite (.bidding (startGamePhase dealer deck (P1, P2, P3, P4))) = true := by
    simp [teamsSitOpposite, teamsOf, startGamePhase, dealPlayer, hp1, hp2, hp3, hp4,
      h1, h2, h3, h4]
  have hsix : doAllPlayersHaveSixCards (.bidding (startGamePhase dealer deck (P1, P2, P3, P4))) = true := rfl
  have hso : hasSittingOutConflict (.bidding (startGamePhase dealer deck (P1, P2, P3, P4))) = false := rfl
  have hto : tricksHaveUniqueOwners (.bidding (startGamePhase dealer deck (P1, P2, P3, P4))) = true := rfl
  have hfc : hasFullCurrentTrick (.bidding (startGamePhase dealer deck (P1, P2, P3, P4))) = false := rfl
  simp [determineIfPhaseIsLegal, hso, hto, hfc, hlen24, huniq, hseats, hopp, hsix,
    phaseName, teamsOf]

/-- C8: for any dealer the random choice may yield, any shuffle that permutes
the 24-card deck, and four lobby players on seats 1, 2, 3, 4, startGame
returns (not a diagnostic) a Bidding phase whose dealer is the chosen seat,
whose first bidder is the seat after the dealer, whose bid list is empty,
whose four players hold 6 cards each, and whose two teams pair seats 1 and 3
and seats 2 and 4, both starting at 0 points. -/
theorem startGame_deal_spec (dealer : PlayerPosition) (deck : List Card)
    (P1 P2 P3 P4 : LobbyPlayer) (hperm : deck.Perm getAllCards)
    (h1 : P1.position = PlayerPosition.one) (h2 : P2.position = PlayerPosition.two)
    (h3 : P3.position = PlayerPosition.three) (h4 : P4.position = PlayerPosition.four) :
    ∃ bp : BiddingPhase,
      startGame dealer deck (P1, P2, P3, P4) = Sum.inl bp ∧
      bp.dealer = dealer ∧
      dealer ∈ [PlayerPosition.one, PlayerPosition.two, PlayerPosition.three,
        PlayerPosition.four] ∧
      bp.bidPosition = getNextPosition dealer ∧
      bp.bids = [] ∧
      (playersOf (.bidding bp)).all (fun player => player.hand.length == 6) = true ∧
      bp.teams.1.points = 0 ∧ bp.teams.2.points = 0 ∧
      bp.teams.1.players.1.position = PlayerPosition.one ∧
      bp.teams.1.players.2.position = PlayerPosition.three ∧
      bp.teams.2.players.1.position = PlayerPosition.two ∧
      bp.teams.2.players.2.position = PlayerPosition.four := by
  obtain ⟨hp1, hp2, hp3, hp4⟩ := getPlayerInPosition_eval P1 P2 P3 P4 h1 h2 h3 h4
  refine ⟨startGamePhase dealer deck (P1, P2, P3, P4), ?_, rfl, ?_, rfl, rfl, rfl,
    rfl, rfl, ?_, ?_, ?_, ?_⟩
  · simp [startGame, startGamePhase_legal dealer deck P1 P2 P3 P4 hperm h1 h2 h3 h4]
  · cases dealer <;> decide
  · simp [startGamePhase, dealPlayer, hp1, h1]
  · simp [startGamePhase, dealPlayer, hp3, h3]
  · simp [startGamePhase, dealPlayer, hp2, h2]
  · simp [startGamePhase, dealPlayer, hp4, h4]

def lobbyP1 : LobbyPlayer := ⟨"North", .one⟩

def lobbyP2 : LobbyPlayer := ⟨"East", .two⟩

def lobbyP3 : LobbyPlayer := ⟨"South", .three⟩

def lobbyP4 : LobbyPlayer := ⟨"West", .four⟩

/-- C8 witness: the unshuffled deck (a permutation of itself) and four named
players on seats 1..4, with dealer seat 1. -/
theorem startGame_deal_spec_witness :
    getAllCards.Perm getAllCards ∧
    lobbyP1.position = PlayerPosition.one ∧ lobbyP2.position = PlayerPosition.two ∧
    lobbyP3.position = PlayerPosition.three ∧ lobbyP4.position = PlayerPosition.four ∧
    (∃ bp : BiddingPhase,
      startGame .one getAllCards (lobbyP1, lobbyP2, lobbyP3, lobbyP4) = Sum.inl bp ∧
      bp.dealer = .one ∧
      PlayerPosition.one ∈ [PlayerPosition.one, PlayerPosition.two, PlayerPosition.three,
        PlayerPosition.four] ∧
      bp.bidPosition = getNextPosition .one ∧
      bp.bids = [] ∧
      (playersOf (.bidding bp)).all (fun player => player.hand.length == 6) = true ∧
      bp.teams.1.points = 0 ∧ bp.teams.2.points = 0 ∧
      bp.teams.1.players.1.position = PlayerPosition.one ∧
      bp.teams.1.players.2.position = PlayerPosition.three ∧
      bp.teams.2.players.1.position = PlayerPosition.two ∧
      bp.teams.2.players.2.position = PlayerPosition.four) :=
  ⟨List.Perm.refl getAllCards, rfl, rfl, rfl, rfl,
    startGame_deal_spec .one getAllCards lobbyP1 lobbyP2 lobbyP3 lobbyP4
      (List.Perm.refl getAllCards) rfl rfl rfl rfl⟩
